import Mathlib

/-!
Verification of the packet-level decoder (`src/libipt/src/pt_packet_decoder.c`).

The session state machine, synchronization entry points, the decode-step
operation and the per-kind decode routines are embedded directly from the
source file.  External collaborators that live elsewhere in the repository
(the dispatch-table fetch `pt_df_fetch`, the scanners `pt_sync_forward` /
`pt_sync_backward`, and the per-kind field readers `pt_pkt_read_*`) are
modelled from the specification; each such definition says so in its doc
comment.

C pointers into the trace buffer are embedded as natural-number addresses
with `0` playing the role of the null pointer (the decoder is zero-initialised
with `memset`, so an unset cursor is the address `0`, exactly as in the C).
Byte memory is a total function from addresses to byte values.  C `int`
returns are embedded as `Int`; the `uint8_t` packet-size field stores values
reduced modulo 256, mirroring the C casts.
-/

/-- The raw trace buffer: a byte value at every natural-number address; `0`
plays the role of the null pointer throughout. -/
abbrev Mem := Nat → Nat

/-- Error codes of the library's status enumeration (repository code outside
`src/`).  Every claim depends only on the codes being distinct and on calls
returning their negations; the numeric values follow the enumeration order. -/
def pte_internal : Int := 1

/-- InvalidArgument status code. -/
def pte_invalid : Int := 2

/-- NoSync status code. -/
def pte_nosync : Int := 3

/-- Bad-opcode data-format status code. -/
def pte_bad_opc : Int := 4

/-- Bad-packet data-format status code. -/
def pte_bad_packet : Int := 5

/-- End-of-stream data-format status code. -/
def pte_eos : Int := 7

/-- BadConfig status code. -/
def pte_bad_config : Int := 10

/-- Fixed sizes of the payload-less packet kinds (compile-time constants of
the repository's packet header, outside `src/`): one pad byte, the 16-byte
PSB marker, and the two-byte extended-opcode packets OVF and PSBEnd. -/
def ptps_pad : Nat := 1

/-- Fixed size of the PSB synchronization marker. -/
def ptps_psb : Nat := 16

/-- Fixed size of an OVF packet. -/
def ptps_ovf : Nat := 2

/-- Fixed size of a PSBEnd packet. -/
def ptps_psbend : Nat := 2

/-- The compiled `sizeof(struct pt_config)` the constructor compares the
view's version tag against.  The claims depend only on the equality test,
not on the numeric value. -/
def sizeof_pt_config : Nat := 32

/-- The buffer view (`struct pt_config`): version tag and the window
`[begin, end)`.  `begin_ = 0` models a null `begin` pointer. -/
structure PtConfig where
  csize : Nat
  begin_ : Nat
  end_ : Nat
deriving DecidableEq, Repr

/-- The decoder session (`struct pt_packet_decoder`): a private copy of the
view plus the cursor and last sync point; `0` means unset (null). -/
structure PtPacketDecoder where
  config : PtConfig
  pos : Nat
  sync : Nat
deriving DecidableEq, Repr

/-- Packet kinds (`enum pt_packet_type`). -/
inductive PtPacketType where
  | ppt_unknown
  | ppt_pad
  | ppt_psb
  | ppt_tip
  | ppt_tnt_8
  | ppt_tnt_64
  | ppt_tip_pge
  | ppt_tip_pgd
  | ppt_fup
  | ppt_pip
  | ppt_ovf
  | ppt_mode
  | ppt_psbend
  | ppt_tsc
  | ppt_cbr
deriving DecidableEq, Repr

/-- Packet payload variants; the field readers produce the carried values,
abstracted here as a single natural number per family. -/
inductive PtPayload where
  | noPayload
  | unknownSpan (v : Nat)
  | ip (v : Nat)
  | tnt (v : Nat)
  | pip (v : Nat)
  | mode (v : Nat)
  | tsc (v : Nat)
  | cbr (v : Nat)
deriving DecidableEq, Repr

/-- A decoded packet record (`struct pt_packet`); `size` is the `uint8_t`
byte count, stored modulo 256 as the C casts do. -/
structure PtPacket where
  type : PtPacketType
  size : Nat
  payload : PtPayload
deriving DecidableEq, Repr

/-- The C cast `(uint8_t) size` applied to a checked-non-negative `int`. -/
def toU8 (n : Int) : Nat := n.toNat % 256

/-- What the dispatch-table lookup can hand back to the decode step: no entry
at all (`dfun == NULL`), an entry without a decode function
(`dfun->packet == NULL`), or one of the decode routines of this file. -/
inductive PtRoutine where
  | unknown
  | pad
  | psb
  | tip
  | tnt_8
  | tnt_64
  | tip_pge
  | tip_pgd
  | fup
  | pip
  | ovf
  | mode
  | psbend
  | tsc
  | cbr
deriving DecidableEq, Repr

/-- A dispatch-table entry as seen by `pt_pkt_next`. -/
inductive DfEntry where
  | noEntry
  | noPacketFun
  | routine (r : PtRoutine)
deriving DecidableEq, Repr

/-- The external collaborators: the opcode dispatch table and the per-kind
field readers.  Modelled from the spec: each reader parses payload bytes at a
position of the view and returns a consumed size (non-negative) or a negative
failure, together with the payload value it wrote; the unknown-span reader
receives the whole packet record and fills it itself. -/
structure Env where
  table : Nat → DfEntry
  read_unknown : Mem → Option PtPacket → Nat → PtConfig → Int × Option PtPacket
  read_psb : Mem → Nat → PtConfig → Int
  read_ip : Mem → Nat → PtConfig → Int × Nat
  read_tnt_8 : Mem → Nat → PtConfig → Int × Nat
  read_tnt_64 : Mem → Nat → PtConfig → Int × Nat
  read_pip : Mem → Nat → PtConfig → Int × Nat
  read_mode : Mem → Nat → PtConfig → Int × Nat
  read_tsc : Mem → Nat → PtConfig → Int × Nat
  read_cbr : Mem → Nat → PtConfig → Int × Nat

/-- `pt_pkt_decoder_init`: validate the arguments and the view, then
zero-initialise the session and store a private copy of the view. -/
def pt_pkt_decoder_init (decoder : Option PtPacketDecoder) (config : Option PtConfig) :
    Int × Option PtPacketDecoder :=
  match decoder, config with
  | none, _ => (-pte_invalid, none)
  | some d, none => (-pte_invalid, some d)
  | some d, some cfg =>
    if cfg.csize ≠ sizeof_pt_config then (-pte_bad_config, some d)
    else if cfg.begin_ = 0 ∨ cfg.end_ < cfg.begin_ then (-pte_bad_config, some d)
    else (0, some { config := cfg, pos := 0, sync := 0 })

/-- `pt_pkt_get_offset`: report `pos` relative to `begin`; the boolean stands
for the presence of the caller's out-pointer. -/
def pt_pkt_get_offset (decoder : Option PtPacketDecoder) (offsetPtr : Bool) :
    Except Int Nat :=
  match decoder, offsetPtr with
  | none, _ => Except.error (-pte_invalid)
  | some _, false => Except.error (-pte_invalid)
  | some d, true =>
    if d.pos = 0 then Except.error (-pte_nosync)
    else Except.ok (d.pos - d.config.begin_)

/-- `pt_pkt_sync_set`: unchecked seek to `begin + offset`, rejected when the
resulting position falls outside `[begin, end]`. -/
def pt_pkt_sync_set (decoder : Option PtPacketDecoder) (offset : Nat) :
    Int × Option PtPacketDecoder :=
  match decoder with
  | none => (-pte_invalid, none)
  | some d =>
    let pos := d.config.begin_ + offset
    if d.config.end_ < pos ∨ pos < d.config.begin_ then (-pte_invalid, some d)
    else (0, some { d with sync := pos, pos := pos })

/-- The 16-byte PSB marker pattern.  Modelled from the spec: a fixed pattern
(the repeated two-byte extended-opcode sequence) that anchors resynchronization. -/
def psb_byte (i : Nat) : Nat := if i % 2 = 0 then 2 else 130

/-- Whether the complete PSB pattern lies at address `a`. -/
def psb_pattern_at (mem : Mem) (a : Nat) : Bool :=
  (List.range ptps_psb).all (fun i => mem (a + i) == psb_byte i)

/-- Whether a complete PSB marker starts at `a` inside the view. -/
def psb_marker_at (mem : Mem) (cfg : PtConfig) (a : Nat) : Bool :=
  (a + ptps_psb ≤ cfg.end_) && psb_pattern_at mem a

/-- Modelled from the spec: `pt_sync_forward` (repository code outside `src/`)
scans forward from `pos` for the next complete marker occurrence before `end`;
on success it yields the marker's start, otherwise NoSync. -/
def pt_sync_forward (mem : Mem) (pos : Nat) (cfg : PtConfig) : Except Int Nat :=
  match ((List.range (cfg.end_ - pos)).map (fun i => pos + i)).find?
      (fun a => psb_marker_at mem cfg a) with
  | some a => Except.ok a
  | none => Except.error (-pte_nosync)

/-- Modelled from the spec: `pt_sync_backward` (repository code outside `src/`)
scans backward from `pos` for the nearest complete marker occurrence lying
before `pos` and inside the view; on success it yields the marker's start,
otherwise NoSync. -/
def pt_sync_backward (mem : Mem) (pos : Nat) (cfg : PtConfig) : Except Int Nat :=
  match ((List.range (pos + 1)).map (fun i => pos - i)).find?
      (fun a => (cfg.begin_ ≤ a) && (a + ptps_psb ≤ pos) && psb_marker_at mem cfg a) with
  | some a => Except.ok a
  | none => Except.error (-pte_nosync)

/-- `pt_pkt_sync_forward`: scan forward from `pos` (or `begin` when unset),
first skipping the marker the cursor currently sits on, then set both `sync`
and `pos` to the found marker's start. -/
def pt_pkt_sync_forward (mem : Mem) (decoder : Option PtPacketDecoder) :
    Int × Option PtPacketDecoder :=
  match decoder with
  | none => (-pte_invalid, none)
  | some d =>
    let sync := d.sync
    let pos0 := if d.pos = 0 then d.config.begin_ else d.pos
    let pos := if pos0 = sync then pos0 + ptps_psb else pos0
    match pt_sync_forward mem pos d.config with
    | Except.error e => (e, some d)
    | Except.ok s => (0, some { d with sync := s, pos := s })

/-- `pt_pkt_sync_backward`: scan backward from `sync` (or `end` when never
synchronized) and set both `sync` and `pos` to the found marker's start. -/
def pt_pkt_sync_backward (mem : Mem) (decoder : Option PtPacketDecoder) :
    Int × Option PtPacketDecoder :=
  match decoder with
  | none => (-pte_invalid, none)
  | some d =>
    let pos := if d.sync = 0 then d.config.end_ else d.sync
    match pt_sync_backward mem pos d.config with
    | Except.error e => (e, some d)
    | Except.ok s => (0, some { d with sync := s, pos := s })

/-- `pt_pkt_decode_unknown`: delegate the whole record to the unknown-span
reader. -/
def pt_pkt_decode_unknown (env : Env) (mem : Mem) (decoder : Option PtPacketDecoder)
    (packet : Option PtPacket) : Int × Option PtPacket :=
  match decoder with
  | none => (-pte_internal, packet)
  | some d => env.read_unknown mem packet d.pos d.config

/-- `pt_pkt_decode_pad`: synthesize the record from compile-time constants. -/
def pt_pkt_decode_pad (decoder : Option PtPacketDecoder) (packet : Option PtPacket) :
    Int × Option PtPacket :=
  match packet with
  | none => (-pte_internal, none)
  | some p =>
    ((ptps_pad : Int),
     some { p with type := PtPacketType.ppt_pad, size := ptps_pad })

/-- `pt_pkt_decode_psb`: delegate to the marker reader, then fill the record
on success. -/
def pt_pkt_decode_psb (env : Env) (mem : Mem) (decoder : Option PtPacketDecoder)
    (packet : Option PtPacket) : Int × Option PtPacket :=
  match decoder with
  | none => (-pte_internal, packet)
  | some d =>
    let size := env.read_psb mem d.pos d.config
    if size < 0 then (size, packet)
    else (size, packet.map
      (fun p => { p with type := PtPacketType.ppt_psb, size := toU8 size }))

/-- Common shape of the IP-family decode routines: delegate to the IP reader,
write the payload, and on success fill kind and size. -/
def decode_ip_family (t : PtPacketType) (env : Env) (mem : Mem)
    (decoder : Option PtPacketDecoder) (packet : Option PtPacket) :
    Int × Option PtPacket :=
  match decoder, packet with
  | none, _ => (-pte_internal, packet)
  | some _, none => (-pte_internal, none)
  | some d, some p =>
    let r := env.read_ip mem d.pos d.config
    let p1 := { p with payload := PtPayload.ip r.2 }
    if r.1 < 0 then (r.1, some p1)
    else (r.1, some { p1 with type := t, size := toU8 r.1 })

/-- `pt_pkt_decode_tip`. -/
def pt_pkt_decode_tip (env : Env) (mem : Mem) (decoder : Option PtPacketDecoder)
    (packet : Option PtPacket) : Int × Option PtPacket :=
  decode_ip_family PtPacketType.ppt_tip env mem decoder packet

/-- `pt_pkt_decode_tip_pge`. -/
def pt_pkt_decode_tip_pge (env : Env) (mem : Mem) (decoder : Option PtPacketDecoder)
    (packet : Option PtPacket) : Int × Option PtPacket :=
  decode_ip_family PtPacketType.ppt_tip_pge env mem decoder packet

/-- `pt_pkt_decode_tip_pgd`. -/
def pt_pkt_decode_tip_pgd (env : Env) (mem : Mem) (decoder : Option PtPacketDecoder)
    (packet : Option PtPacket) : Int × Option PtPacket :=
  decode_ip_family PtPacketType.ppt_tip_pgd env mem decoder packet

/-- `pt_pkt_decode_fup`. -/
def pt_pkt_decode_fup (env : Env) (mem : Mem) (decoder : Option PtPacketDecoder)
    (packet : Option PtPacket) : Int × Option PtPacket :=
  decode_ip_family PtPacketType.ppt_fup env mem decoder packet

/-- `pt_pkt_decode_tnt_8`. -/
def pt_pkt_decode_tnt_8 (env : Env) (mem : Mem) (decoder : Option PtPacketDecoder)
    (packet : Option PtPacket) : Int × Option PtPacket :=
  match decoder, packet with
  | none, _ => (-pte_internal, packet)
  | some _, none => (-pte_internal, none)
  | some d, some p =>
    let r := env.read_tnt_8 mem d.pos d.config
    let p1 := { p with payload := PtPayload.tnt r.2 }
    if r.1 < 0 then (r.1, some p1)
    else (r.1, some { p1 with type := PtPacketType.ppt_tnt_8, size := toU8 r.1 })

/-- `pt_pkt_decode_tnt_64`. -/
def pt_pkt_decode_tnt_64 (env : Env) (mem : Mem) (decoder : Option PtPacketDecoder)
    (packet : Option PtPacket) : Int × Option PtPacket :=
  match decoder, packet with
  | none, _ => (-pte_internal, packet)
  | some _, none => (-pte_internal, none)
  | some d, some p =>
    let r := env.read_tnt_64 mem d.pos d.config
    let p1 := { p with payload := PtPayload.tnt r.2 }
    if r.1 < 0 then (r.1, some p1)
    else (r.1, some { p1 with type := PtPacketType.ppt_tnt_64, size := toU8 r.1 })

/-- `pt_pkt_decode_pip`. -/
def pt_pkt_decode_pip (env : Env) (mem : Mem) (decoder : Option PtPacketDecoder)
    (packet : Option PtPacket) : Int × Option PtPacket :=
  match decoder, packet with
  | none, _ => (-pte_internal, packet)
  | some _, none => (-pte_internal, none)
  | some d, some p =>
    let r := env.read_pip mem d.pos d.config
    let p1 := { p with payload := PtPayload.pip r.2 }
    if r.1 < 0 then (r.1, some p1)
    else (r.1, some { p1 with type := PtPacketType.ppt_pip, size := toU8 r.1 })

/-- `pt_pkt_decode_ovf`: synthesize the record from compile-time constants. -/
def pt_pkt_decode_ovf (decoder : Option PtPacketDecoder) (packet : Option PtPacket) :
    Int × Option PtPacket :=
  match packet with
  | none => (-pte_internal, none)
  | some p =>
    ((ptps_ovf : Int),
     some { p with type := PtPacketType.ppt_ovf, size := ptps_ovf })

/-- `pt_pkt_decode_mode`. -/
def pt_pkt_decode_mode (env : Env) (mem : Mem) (decoder : Option PtPacketDecoder)
    (packet : Option PtPacket) : Int × Option PtPacket :=
  match decoder, packet with
  | none, _ => (-pte_internal, packet)
  | some _, none => (-pte_internal, none)
  | some d, some p =>
    let r := env.read_mode mem d.pos d.config
    let p1 := { p with payload := PtPayload.mode r.2 }
    if r.1 < 0 then (r.1, some p1)
    else (r.1, some { p1 with type := PtPacketType.ppt_mode, size := toU8 r.1 })

/-- `pt_pkt_decode_psbend`: synthesize the record from compile-time constants. -/
def pt_pkt_decode_psbend (decoder : Option PtPacketDecoder) (packet : Option PtPacket) :
    Int × Option PtPacket :=
  match packet with
  | none => (-pte_internal, none)
  | some p =>
    ((ptps_psbend : Int),
     some { p with type := PtPacketType.ppt_psbend, size := ptps_psbend })

/-- `pt_pkt_decode_tsc`. -/
def pt_pkt_decode_tsc (env : Env) (mem : Mem) (decoder : Option PtPacketDecoder)
    (packet : Option PtPacket) : Int × Option PtPacket :=
  match decoder, packet with
  | none, _ => (-pte_internal, packet)
  | some _, none => (-pte_internal, none)
  | some d, some p =>
    let r := env.read_tsc mem d.pos d.config
    let p1 := { p with payload := PtPayload.tsc r.2 }
    if r.1 < 0 then (r.1, some p1)
    else (r.1, some { p1 with type := PtPacketType.ppt_tsc, size := toU8 r.1 })

/-- `pt_pkt_decode_cbr`. -/
def pt_pkt_decode_cbr (env : Env) (mem : Mem) (decoder : Option PtPacketDecoder)
    (packet : Option PtPacket) : Int × Option PtPacket :=
  match decoder, packet with
  | none, _ => (-pte_internal, packet)
  | some _, none => (-pte_internal, none)
  | some d, some p =>
    let r := env.read_cbr mem d.pos d.config
    let p1 := { p with payload := PtPayload.cbr r.2 }
    if r.1 < 0 then (r.1, some p1)
    else (r.1, some { p1 with type := PtPacketType.ppt_cbr, size := toU8 r.1 })

/-- Invoking a dispatch-table routine, i.e. the call `dfun->packet(decoder,
packet)` of the decode step. -/
def runRoutine (env : Env) (mem : Mem) (r : PtRoutine)
    (decoder : Option PtPacketDecoder) (packet : Option PtPacket) :
    Int × Option PtPacket :=
  match r with
  | PtRoutine.unknown => pt_pkt_decode_unknown env mem decoder packet
  | PtRoutine.pad => pt_pkt_decode_pad decoder packet
  | PtRoutine.psb => pt_pkt_decode_psb env mem decoder packet
  | PtRoutine.tip => pt_pkt_decode_tip env mem decoder packet
  | PtRoutine.tnt_8 => pt_pkt_decode_tnt_8 env mem decoder packet
  | PtRoutine.tnt_64 => pt_pkt_decode_tnt_64 env mem decoder packet
  | PtRoutine.tip_pge => pt_pkt_decode_tip_pge env mem decoder packet
  | PtRoutine.tip_pgd => pt_pkt_decode_tip_pgd env mem decoder packet
  | PtRoutine.fup => pt_pkt_decode_fup env mem decoder packet
  | PtRoutine.pip => pt_pkt_decode_pip env mem decoder packet
  | PtRoutine.ovf => pt_pkt_decode_ovf decoder packet
  | PtRoutine.mode => pt_pkt_decode_mode env mem decoder packet
  | PtRoutine.psbend => pt_pkt_decode_psbend decoder packet
  | PtRoutine.tsc => pt_pkt_decode_tsc env mem decoder packet
  | PtRoutine.cbr => pt_pkt_decode_cbr env mem decoder packet

/-- Modelled from the spec: `pt_df_fetch` (repository code outside `src/`)
checks that `pos` is a set cursor within `[begin, end)` before reading the
opcode byte there and consulting the dispatch table. -/
def pt_df_fetch (env : Env) (mem : Mem) (pos : Nat) (cfg : PtConfig) :
    Except Int DfEntry :=
  if pos = 0 ∨ pos < cfg.begin_ ∨ cfg.end_ ≤ pos then Except.error (-pte_eos)
  else Except.ok (env.table (mem pos))

/-- `pt_pkt_next`: the decode step.  Fetch the decode routine for the opcode
at `pos`, invoke it, and on success advance `pos` by the returned size. -/
def pt_pkt_next (env : Env) (mem : Mem) (decoder : Option PtPacketDecoder)
    (packet : Option PtPacket) :
    Int × Option PtPacketDecoder × Option PtPacket :=
  match decoder, packet with
  | none, _ => (-pte_invalid, none, packet)
  | some d, none => (-pte_invalid, some d, none)
  | some d, some p =>
    match pt_df_fetch env mem d.pos d.config with
    | Except.error e => (e, some d, some p)
    | Except.ok DfEntry.noEntry => (-pte_internal, some d, some p)
    | Except.ok DfEntry.noPacketFun => (-pte_internal, some d, some p)
    | Except.ok (DfEntry.routine r) =>
      let res := runRoutine env mem r (some d) (some p)
      if res.1 < 0 then (res.1, some d, res.2)
      else (res.1, some { d with pos := d.pos + res.1.toNat }, res.2)

/-- A run of up to `n` decode steps from a session and packet record,
stopping at the first failure and collecting the returned sizes. -/
def pt_pkt_run (env : Env) (mem : Mem) :
    Nat → PtPacketDecoder → PtPacket → PtPacketDecoder × PtPacket × List Nat
  | 0, d, p => (d, p, [])
  | Nat.succ n, d, p =>
    match pt_pkt_next env mem (some d) (some p) with
    | (s, some d', some p') =>
      if 0 ≤ s then
        let rest := pt_pkt_run env mem n d' p'
        (rest.1, rest.2.1, s.toNat :: rest.2.2)
      else (d, p, [])
    | (_, _, _) => (d, p, [])

/-- Modelled from the spec: the contract of the external unknown-span reader
(`pt_pkt_read_unknown`, repository code outside `src/`): on a successful
parse it fills the record with the unknown kind and the consumed size (an
8-bit byte count). -/
def UnknownReaderOk (env : Env) : Prop :=
  ∀ mem p pos cfg s p', env.read_unknown mem p pos cfg = (s, some p') → 0 ≤ s →
    p'.size = toU8 s ∧ p'.type = PtPacketType.ppt_unknown

/-- Modelled from the spec: `pt_pkt_read_psb` (repository code outside
`src/`) verifies the fixed marker pattern at `pos`, returning the marker's
fixed size on a match and a data-format failure otherwise. -/
def pt_pkt_read_psb (mem : Mem) (pos : Nat) (cfg : PtConfig) : Int :=
  if cfg.end_ < pos + ptps_psb then -pte_eos
  else if psb_pattern_at mem pos then (ptps_psb : Int) else -pte_bad_packet

/-- The sessions a caller can actually hold: constructed by a successful
`pt_pkt_decoder_init` and transformed by the session operations over one
immutable buffer. -/
inductive Reachable (env : Env) (mem : Mem) : PtPacketDecoder → Prop where
  | init : ∀ d0 cfg d, pt_pkt_decoder_init (some d0) (some cfg) = (0, some d) →
      Reachable env mem d
  | syncForward : ∀ d s d', Reachable env mem d →
      pt_pkt_sync_forward mem (some d) = (s, some d') → Reachable env mem d'
  | syncBackward : ∀ d s d', Reachable env mem d →
      pt_pkt_sync_backward mem (some d) = (s, some d') → Reachable env mem d'
  | syncSet : ∀ d off s d', Reachable env mem d →
      pt_pkt_sync_set (some d) off = (s, some d') → Reachable env mem d'
  | next : ∀ d p s d' p', Reachable env mem d →
      pt_pkt_next env mem (some d) (some p) = (s, some d', some p') →
      Reachable env mem d'

/-! ## Helper lemmas -/

theorem pt_df_fetch_error_eq {env mem pos cfg e}
    (h : pt_df_fetch env mem pos cfg = Except.error e) : e = -pte_eos := by
  unfold pt_df_fetch at h
  split at h
  · exact (Except.error.injEq _ _).mp h.symm
  · exact absurd h (by simp)

theorem pt_df_fetch_ok_bounds {env mem pos cfg entry}
    (h : pt_df_fetch env mem pos cfg = Except.ok entry) :
    pos ≠ 0 ∧ cfg.begin_ ≤ pos ∧ pos < cfg.end_ := by
  unfold pt_df_fetch at h
  split at h
  · exact absurd h (by simp)
  · next hcond => push_neg at hcond; omega

theorem pt_sync_forward_error_eq {mem pos cfg e}
    (h : pt_sync_forward mem pos cfg = Except.error e) : e = -pte_nosync := by
  unfold pt_sync_forward at h
  split at h
  · exact absurd h (by simp)
  · exact (Except.error.injEq _ _).mp h.symm

theorem pt_sync_forward_ok_ge {mem pos cfg s}
    (h : pt_sync_forward mem pos cfg = Except.ok s) : pos ≤ s := by
  unfold pt_sync_forward at h
  split at h
  · next a hfind =>
    have hmem := List.mem_of_find?_eq_some hfind
    have heq : a = s := (Except.ok.injEq _ _).mp h
    subst heq
    rcases List.mem_map.mp hmem with ⟨i, _, rfl⟩
    omega
  · exact absurd h (by simp)

theorem pt_sync_backward_error_eq {mem pos cfg e}
    (h : pt_sync_backward mem pos cfg = Except.error e) : e = -pte_nosync := by
  unfold pt_sync_backward at h
  split at h
  · exact absurd h (by simp)
  · exact (Except.error.injEq _ _).mp h.symm

theorem pt_sync_backward_ok_bounds {mem pos cfg s}
    (h : pt_sync_backward mem pos cfg = Except.ok s) :
    cfg.begin_ ≤ s ∧ s + ptps_psb ≤ pos := by
  unfold pt_sync_backward at h
  split at h
  · next a hfind =>
    have hpred := List.find?_some hfind
    have heq : a = s := (Except.ok.injEq _ _).mp h
    subst heq
    simp only [Bool.and_eq_true, decide_eq_true_eq] at hpred
    exact ⟨hpred.1.1, hpred.1.2⟩
  · exact absurd h (by simp)

theorem pt_pkt_sync_forward_spec {mem : Mem} {d : PtPacketDecoder} {s : Int}
    {d' : PtPacketDecoder}
    (h : pt_pkt_sync_forward mem (some d) = (s, some d')) :
    (s ≠ 0 ∧ d' = d) ∨
    (s = 0 ∧ d'.config = d.config ∧ d'.pos = d'.sync ∧
      (if d.pos = 0 then d.config.begin_ else d.pos) ≤ d'.sync ∧
      ((if d.pos = 0 then d.config.begin_ else d.pos) = d.sync →
        d.sync + ptps_psb ≤ d'.sync)) := by
  unfold pt_pkt_sync_forward at h
  simp only at h
  split at h
  · next e herr =>
    have he := pt_sync_forward_error_eq herr
    subst he
    simp only [Prod.mk.injEq, Option.some.injEq] at h
    left
    refine ⟨?_, h.2.symm⟩
    rw [← h.1]
    decide
  · next a hok =>
    simp only [Prod.mk.injEq, Option.some.injEq] at h
    obtain ⟨hs, hd⟩ := h
    subst hs
    subst hd
    right
    have hge := pt_sync_forward_ok_ge hok
    refine ⟨rfl, rfl, rfl, ?_, ?_⟩
    · show (if d.pos = 0 then d.config.begin_ else d.pos) ≤ a
      by_cases hskip : (if d.pos = 0 then d.config.begin_ else d.pos) = d.sync
      · rw [if_pos hskip] at hge
        omega
      · rwa [if_neg hskip] at hge
    · intro hskip
      show d.sync + ptps_psb ≤ a
      rw [if_pos hskip, hskip] at hge
      exact hge

theorem pt_pkt_sync_backward_spec {mem : Mem} {d : PtPacketDecoder} {s : Int}
    {d' : PtPacketDecoder}
    (h : pt_pkt_sync_backward mem (some d) = (s, some d')) :
    (s ≠ 0 ∧ d' = d) ∨
    (s = 0 ∧ d'.config = d.config ∧ d'.pos = d'.sync ∧
      d.config.begin_ ≤ d'.sync) := by
  unfold pt_pkt_sync_backward at h
  simp only at h
  split at h
  · next e herr =>
    have he := pt_sync_backward_error_eq herr
    subst he
    simp only [Prod.mk.injEq, Option.some.injEq] at h
    left
    refine ⟨?_, h.2.symm⟩
    rw [← h.1]
    decide
  · next a hok =>
    simp only [Prod.mk.injEq, Option.some.injEq] at h
    obtain ⟨hs, hd⟩ := h
    subst hs
    subst hd
    right
    have hb := pt_sync_backward_ok_bounds hok
    exact ⟨rfl, rfl, rfl, hb.1⟩

theorem pt_pkt_sync_set_spec {d : PtPacketDecoder} {off : Nat} {s : Int}
    {d' : PtPacketDecoder}
    (h : pt_pkt_sync_set (some d) off = (s, some d')) :
    (s ≠ 0 ∧ d' = d) ∨
    (s = 0 ∧ d'.config = d.config ∧ d'.pos = d'.sync ∧
      d'.sync = d.config.begin_ + off ∧ d.config.begin_ + off ≤ d.config.end_) := by
  unfold pt_pkt_sync_set at h
  simp only at h
  split at h
  · next hcond =>
    simp only [Prod.mk.injEq, Option.some.injEq] at h
    left
    refine ⟨?_, h.2.symm⟩
    rw [← h.1]
    decide
  · next hcond =>
    push_neg at hcond
    simp only [Prod.mk.injEq, Option.some.injEq] at h
    obtain ⟨hs, hd⟩ := h
    subst hs
    subst hd
    exact Or.inr ⟨rfl, rfl, rfl, rfl, hcond.1⟩

theorem pt_pkt_decoder_init_ok {d0 : PtPacketDecoder} {cfg : PtConfig}
    {d : PtPacketDecoder}
    (h : pt_pkt_decoder_init (some d0) (some cfg) = (0, some d)) :
    d = { config := cfg, pos := 0, sync := 0 } ∧ cfg.csize = sizeof_pt_config ∧
      cfg.begin_ ≠ 0 ∧ cfg.begin_ ≤ cfg.end_ := by
  simp only [pt_pkt_decoder_init] at h
  split at h
  · next hc =>
    simp only [Prod.mk.injEq] at h
    exact absurd h.1 (by decide)
  · split at h
    · next hc =>
      simp only [Prod.mk.injEq] at h
      exact absurd h.1 (by decide)
    · next hc hc2 =>
      push_neg at hc hc2
      simp only [Prod.mk.injEq, Option.some.injEq] at h
      exact ⟨h.2.symm, hc, hc2.1, hc2.2⟩

theorem pt_pkt_next_spec {env : Env} {mem : Mem} {d : PtPacketDecoder}
    {p : PtPacket} {s : Int} {dOut : Option PtPacketDecoder}
    {pOut : Option PtPacket}
    (h : pt_pkt_next env mem (some d) (some p) = (s, dOut, pOut)) :
    ∃ d', dOut = some d' ∧ d'.sync = d.sync ∧ d'.config = d.config ∧
      d.pos ≤ d'.pos ∧ (s < 0 → d' = d) ∧
      (0 ≤ s → d'.pos = d.pos + s.toNat) := by
  simp only [pt_pkt_next] at h
  split at h
  · next e hfe =>
    have he := pt_df_fetch_error_eq hfe
    subst he
    simp only [Prod.mk.injEq] at h
    obtain ⟨hs, hdo, hpo⟩ := h
    refine ⟨d, hdo.symm, rfl, rfl, le_refl _, fun _ => rfl, fun hge => ?_⟩
    rw [← hs] at hge
    exact absurd hge (by decide)
  · next hfe =>
    simp only [Prod.mk.injEq] at h
    obtain ⟨hs, hdo, hpo⟩ := h
    refine ⟨d, hdo.symm, rfl, rfl, le_refl _, fun _ => rfl, fun hge => ?_⟩
    rw [← hs] at hge
    exact absurd hge (by decide)
  · next hfe =>
    simp only [Prod.mk.injEq] at h
    obtain ⟨hs, hdo, hpo⟩ := h
    refine ⟨d, hdo.symm, rfl, rfl, le_refl _, fun _ => rfl, fun hge => ?_⟩
    rw [← hs] at hge
    exact absurd hge (by decide)
  · next r hfe =>
    split at h
    · next hlt =>
      simp only [Prod.mk.injEq] at h
      obtain ⟨hs, hdo, hpo⟩ := h
      refine ⟨d, hdo.symm, rfl, rfl, le_refl _, fun _ => rfl, fun hge => ?_⟩
      rw [← hs] at hge
      omega
    · next hlt =>
      push_neg at hlt
      simp only [Prod.mk.injEq] at h
      obtain ⟨hs, hdo, hpo⟩ := h
      refine ⟨_, hdo.symm, rfl, rfl, ?_, fun hneg => ?_, fun _ => ?_⟩
      · show d.pos ≤ d.pos + _
        omega
      · rw [← hs] at hneg
        omega
      · show d.pos + _ = d.pos + s.toNat
        rw [hs]

theorem pt_pkt_next_success_routine {env : Env} {mem : Mem}
    {d : PtPacketDecoder} {p : PtPacket} {s : Int}
    {dOut : Option PtPacketDecoder} {pOut : Option PtPacket}
    (h : pt_pkt_next env mem (some d) (some p) = (s, dOut, pOut)) (hs : 0 ≤ s) :
    ∃ r, pt_df_fetch env mem d.pos d.config = Except.ok (DfEntry.routine r) ∧
      runRoutine env mem r (some d) (some p) = (s, pOut) ∧
      dOut = some { d with pos := d.pos + s.toNat } := by
  simp only [pt_pkt_next] at h
  split at h
  · next e hfe =>
    have he := pt_df_fetch_error_eq hfe
    subst he
    simp only [Prod.mk.injEq] at h
    rw [← h.1] at hs
    exact absurd hs (by decide)
  · next hfe =>
    simp only [Prod.mk.injEq] at h
    rw [← h.1] at hs
    exact absurd hs (by decide)
  · next hfe =>
    simp only [Prod.mk.injEq] at h
    rw [← h.1] at hs
    exact absurd hs (by decide)
  · next r hfe =>
    split at h
    · next hlt =>
      simp only [Prod.mk.injEq] at h
      rw [← h.1] at hs
      omega
    · next hlt =>
      simp only [Prod.mk.injEq] at h
      obtain ⟨hs1, hdo, hpo⟩ := h
      subst hs1
      exact ⟨r, hfe, by rw [← hpo], hdo.symm⟩

theorem runRoutine_size {env : Env} {mem : Mem} {r : PtRoutine}
    {d : PtPacketDecoder} {p : PtPacket} {s : Int} {p' : PtPacket}
    (hur : UnknownReaderOk env)
    (h : runRoutine env mem r (some d) (some p) = (s, some p')) (hs : 0 ≤ s) :
    p'.size = toU8 s := by
  cases r
  case unknown =>
    simp only [runRoutine, pt_pkt_decode_unknown] at h
    exact (hur mem (some p) d.pos d.config s p' h hs).1
  case pad =>
    simp only [runRoutine, pt_pkt_decode_pad, Prod.mk.injEq, Option.some.injEq] at h
    rw [← h.2]
    show ptps_pad = toU8 s
    rw [← h.1]
    decide
  case psb =>
    simp only [runRoutine, pt_pkt_decode_psb] at h
    split at h
    · next hlt =>
      simp only [Prod.mk.injEq] at h
      rw [← h.1] at hs
      omega
    · next hlt =>
      simp only [Prod.mk.injEq, Option.map_some', Option.some.injEq] at h
      rw [← h.2]
      show toU8 (env.read_psb mem d.pos d.config) = toU8 s
      rw [h.1]
  case ovf =>
    simp only [runRoutine, pt_pkt_decode_ovf, Prod.mk.injEq, Option.some.injEq] at h
    rw [← h.2]
    show ptps_ovf = toU8 s
    rw [← h.1]
    decide
  case psbend =>
    simp only [runRoutine, pt_pkt_decode_psbend, Prod.mk.injEq, Option.some.injEq] at h
    rw [← h.2]
    show ptps_psbend = toU8 s
    rw [← h.1]
    decide
  case tip =>
    simp only [runRoutine, pt_pkt_decode_tip, decode_ip_family] at h
    split at h
    · next hlt =>
      simp only [Prod.mk.injEq] at h
      rw [← h.1] at hs
      omega
    · next hlt =>
      simp only [Prod.mk.injEq, Option.some.injEq] at h
      rw [← h.2, ← h.1]
  case tip_pge =>
    simp only [runRoutine, pt_pkt_decode_tip_pge, decode_ip_family] at h
    split at h
    · next hlt =>
      simp only [Prod.mk.injEq] at h
      rw [← h.1] at hs
      omega
    · next hlt =>
      simp only [Prod.mk.injEq, Option.some.injEq] at h
      rw [← h.2, ← h.1]
  case tip_pgd =>
    simp only [runRoutine, pt_pkt_decode_tip_pgd, decode_ip_family] at h
    split at h
    · next hlt =>
      simp only [Prod.mk.injEq] at h
      rw [← h.1] at hs
      omega
    · next hlt =>
      simp only [Prod.mk.injEq, Option.some.injEq] at h
      rw [← h.2, ← h.1]
  case fup =>
    simp only [runRoutine, pt_pkt_decode_fup, decode_ip_family] at h
    split at h
    · next hlt =>
      simp only [Prod.mk.injEq] at h
      rw [← h.1] at hs
      omega
    · next hlt =>
      simp only [Prod.mk.injEq, Option.some.injEq] at h
      rw [← h.2, ← h.1]
  case tnt_8 =>
    simp only [runRoutine, pt_pkt_decode_tnt_8] at h
    split at h
    · next hlt =>
      simp only [Prod.mk.injEq] at h
      rw [← h.1] at hs
      omega
    · next hlt =>
      simp only [Prod.mk.injEq, Option.some.injEq] at h
      rw [← h.2, ← h.1]
  case tnt_64 =>
    simp only [runRoutine, pt_pkt_decode_tnt_64] at h
    split at h
    · next hlt =>
      simp only [Prod.mk.injEq] at h
      rw [← h.1] at hs
      omega
    · next hlt =>
      simp only [Prod.mk.injEq, Option.some.injEq] at h
      rw [← h.2, ← h.1]
  case pip =>
    simp only [runRoutine, pt_pkt_decode_pip] at h
    split at h
    · next hlt =>
      simp only [Prod.mk.injEq] at h
      rw [← h.1] at hs
      omega
    · next hlt =>
      simp only [Prod.mk.injEq, Option.some.injEq] at h
      rw [← h.2, ← h.1]
  case mode =>
    simp only [runRoutine, pt_pkt_decode_mode] at h
    split at h
    · next hlt =>
      simp only [Prod.mk.injEq] at h
      rw [← h.1] at hs
      omega
    · next hlt =>
      simp only [Prod.mk.injEq, Option.some.injEq] at h
      rw [← h.2, ← h.1]
  case tsc =>
    simp only [runRoutine, pt_pkt_decode_tsc] at h
    split at h
    · next hlt =>
      simp only [Prod.mk.injEq] at h
      rw [← h.1] at hs
      omega
    · next hlt =>
      simp only [Prod.mk.injEq, Option.some.injEq] at h
      rw [← h.2, ← h.1]
  case cbr =>
    simp only [runRoutine, pt_pkt_decode_cbr] at h
    split at h
    · next hlt =>
      simp only [Prod.mk.injEq] at h
      rw [← h.1] at hs
      omega
    · next hlt =>
      simp only [Prod.mk.injEq, Option.some.injEq] at h
      rw [← h.2, ← h.1]

theorem reachable_inv {env : Env} {mem : Mem} {d : PtPacketDecoder}
    (h : Reachable env mem d) :
    d.config.begin_ ≠ 0 ∧ d.config.begin_ ≤ d.config.end_ ∧ d.sync ≤ d.pos := by
  induction h with
  | init d0 cfg d hinit =>
    obtain ⟨hd, _, hb, hbe⟩ := pt_pkt_decoder_init_ok hinit
    subst hd
    exact ⟨hb, hbe, le_refl _⟩
  | syncForward d s d' _ hstep ih =>
    rcases pt_pkt_sync_forward_spec hstep with ⟨_, rfl⟩ | ⟨_, hcfg, hps, _, _⟩
    · exact ih
    · rw [hcfg, hps]
      exact ⟨ih.1, ih.2.1, le_refl _⟩
  | syncBackward d s d' _ hstep ih =>
    rcases pt_pkt_sync_backward_spec hstep with ⟨_, rfl⟩ | ⟨_, hcfg, hps, _⟩
    · exact ih
    · rw [hcfg, hps]
      exact ⟨ih.1, ih.2.1, le_refl _⟩
  | syncSet d off s d' _ hstep ih =>
    rcases pt_pkt_sync_set_spec hstep with ⟨_, rfl⟩ | ⟨_, hcfg, hps, _, _⟩
    · exact ih
    · rw [hcfg, hps]
      exact ⟨ih.1, ih.2.1, le_refl _⟩
  | next d p s d' p' _ hstep ih =>
    obtain ⟨d'', hdo, hsy, hcf, hle, _, _⟩ := pt_pkt_next_spec hstep
    rw [Option.some.injEq] at hdo
    subst hdo
    rw [hsy, hcf]
    exact ⟨ih.1, ih.2.1, le_trans ih.2.2 hle⟩

theorem pt_pkt_run_sum (env : Env) (mem : Mem) :
    ∀ (n : Nat) (d : PtPacketDecoder) (p : PtPacket),
      (pt_pkt_run env mem n d p).1.pos =
        d.pos + ((pt_pkt_run env mem n d p).2.2).sum := by
  intro n
  induction n with
  | zero =>
    intro d p
    simp [pt_pkt_run]
  | succ n ih =>
    intro d p
    simp only [pt_pkt_run]
    split
    · next s d' p' hstep =>
      split
      · next hpos =>
        obtain ⟨d'', hdo, -, -, -, -, hposeq⟩ := pt_pkt_next_spec hstep
        rw [Option.some.injEq] at hdo
        subst hdo
        have hp := hposeq hpos
        simp only [List.sum_cons]
        rw [ih d' p']
        omega
      · simp
    · simp

/-! ## Concrete fixtures for witnesses and counterexamples -/

/-- A view the constructor accepts: matching version tag, window `[1, 50)`. -/
def cfgW : PtConfig := { csize := 32, begin_ := 1, end_ := 50 }

/-- The session right after construction over `cfgW`. -/
def dInit : PtPacketDecoder := { config := cfgW, pos := 0, sync := 0 }

/-- A session synchronized at the start of the view. -/
def dSync1 : PtPacketDecoder := { config := cfgW, pos := 1, sync := 1 }

/-- A blank packet record. -/
def pkt0 : PtPacket :=
  { type := PtPacketType.ppt_pad, size := 0, payload := PtPayload.noPayload }

/-- The all-zero buffer. -/
def memZero : Mem := fun _ => 0

/-- A buffer carrying the PSB marker pattern at every odd address. -/
def memPsb : Mem := fun a => if a % 2 = 1 then 2 else 130

/-- An environment whose dispatch table sends every opcode to the pad
routine; the readers fail outright (so the unknown-reader contract holds
vacuously), except the marker reader, which is the modelled one. -/
def envPad : Env :=
  { table := fun _ => DfEntry.routine PtRoutine.pad
    read_unknown := fun _ p _ _ => (-pte_bad_opc, p)
    read_psb := pt_pkt_read_psb
    read_ip := fun _ _ _ => (-pte_eos, 0)
    read_tnt_8 := fun _ _ _ => (-pte_eos, 0)
    read_tnt_64 := fun _ _ _ => (-pte_eos, 0)
    read_pip := fun _ _ _ => (-pte_eos, 0)
    read_mode := fun _ _ _ => (-pte_eos, 0)
    read_tsc := fun _ _ _ => (-pte_eos, 0)
    read_cbr := fun _ _ _ => (-pte_eos, 0) }

/-- Like `envPad` but dispatching every opcode to the TIP routine over an IP
reader that consumes a 300-byte field, as the reader contract (a non-negative
consumed size within the view) permits. -/
def envTip300 : Env :=
  { envPad with
    table := fun _ => DfEntry.routine PtRoutine.tip
    read_ip := fun _ _ _ => (300, 0) }

/-- Like `envPad` but with an empty dispatch table. -/
def envNoEntry : Env := { envPad with table := fun _ => DfEntry.noEntry }

/-- Like `envPad` but every table entry lacks its decode function. -/
def envNoFun : Env := { envPad with table := fun _ => DfEntry.noPacketFun }

/-- A wide view for the 300-byte counterexample. -/
def cfgWide : PtConfig := { csize := 32, begin_ := 1, end_ := 1000 }

/-- A session synchronized at the start of the wide view. -/
def dWide : PtPacketDecoder := { config := cfgWide, pos := 1, sync := 1 }

theorem envPad_unknown_ok : UnknownReaderOk envPad := by
  intro mem p pos cfg s p' h hs
  simp only [envPad, Prod.mk.injEq] at h
  rw [← h.1] at hs
  exact absurd hs (by decide)

theorem envTip300_unknown_ok : UnknownReaderOk envTip300 := by
  intro mem p pos cfg s p' h hs
  simp only [envTip300, envPad, Prod.mk.injEq] at h
  rw [← h.1] at hs
  exact absurd hs (by decide)

/-! ## Claim theorems -/

/-- Claim C1 (amended): on every successful decode step the session's `pos`
advances by exactly the returned size `s`, and the returned packet's `size`
field — an 8-bit byte count — stores `s` reduced modulo 256 (hence equals
`s` itself whenever `s < 256`); the sum of the sizes collected over a run of
successful steps equals the total distance `pos` moved. -/
theorem c1_decode_step_accounting :
    (∀ (env : Env) (mem : Mem) (d : PtPacketDecoder) (p : PtPacket) (s : Int)
        (d' : PtPacketDecoder) (p' : PtPacket), UnknownReaderOk env →
        pt_pkt_next env mem (some d) (some p) = (s, some d', some p') → 0 ≤ s →
        d'.pos = d.pos + s.toNat ∧ p'.size = toU8 s)
    ∧ (∀ (env : Env) (mem : Mem) (n : Nat) (d : PtPacketDecoder) (p : PtPacket),
        (pt_pkt_run env mem n d p).1.pos =
          d.pos + ((pt_pkt_run env mem n d p).2.2).sum) := by
  constructor
  · intro env mem d p s d' p' hur h hs
    obtain ⟨r, hfe, hrun, hdo⟩ := pt_pkt_next_success_routine h hs
    rw [Option.some.injEq] at hdo
    constructor
    · rw [hdo]
    · exact runRoutine_size hur hrun hs
  · intro env mem
    exact pt_pkt_run_sum env mem

/-- Concrete instance of C1: a pad opcode at offset 0 of the view advances
`pos` by one byte and stores that size in the record. -/
theorem c1_witness :
    ({ config := cfgW, pos := 2, sync := 0 } : PtPacketDecoder).pos =
      ({ config := cfgW, pos := 1, sync := 0 } : PtPacketDecoder).pos + (1 : Int).toNat ∧
    ({ type := PtPacketType.ppt_pad, size := 1, payload := PtPayload.noPayload } :
      PtPacket).size = toU8 1 :=
  c1_decode_step_accounting.1 envPad memZero
    { config := cfgW, pos := 1, sync := 0 } pkt0 1
    { config := cfgW, pos := 2, sync := 0 }
    { type := PtPacketType.ppt_pad, size := 1, payload := PtPayload.noPayload }
    envPad_unknown_ok (by decide) (by decide)

/-- C1 as frozen is false: a decode step whose reader consumes 300 bytes of a
wide view returns 300 and advances `pos` by 300, but the record's 8-bit
`size` field holds 44 = 300 mod 256, not 300. -/
theorem c1_counterexample :
    (pt_pkt_next envTip300 memZero (some dWide) (some pkt0)).1 = 300 ∧
    (pt_pkt_next envTip300 memZero (some dWide) (some pkt0)).2.1 =
      some { config := cfgWide, pos := 301, sync := 1 } ∧
    (pt_pkt_next envTip300 memZero (some dWide) (some pkt0)).2.2 =
      some { type := PtPacketType.ppt_tip, size := 44, payload := PtPayload.ip 0 } ∧
    (44 : Nat) ≠ 300 := by
  refine ⟨?_, ?_, ?_, by decide⟩
  · decide
  · decide
  · decide

/-- Claim C2 (amended): the pad, overflow and psbend routines succeed with
their compile-time constant sizes for every session and every buffer content,
reading neither the environment nor the buffer; the psb routine, however,
consults the buffer through the marker-verifying reader: it succeeds with the
marker's fixed size exactly when the complete marker pattern is present at
`pos` within the view, and fails otherwise. -/
theorem c2_fixed_size_kinds :
    (∀ (dOpt : Option PtPacketDecoder) (p : PtPacket),
        pt_pkt_decode_pad dOpt (some p) =
          ((ptps_pad : Int),
            some { p with type := PtPacketType.ppt_pad, size := ptps_pad }) ∧
        pt_pkt_decode_ovf dOpt (some p) =
          ((ptps_ovf : Int),
            some { p with type := PtPacketType.ppt_ovf, size := ptps_ovf }) ∧
        pt_pkt_decode_psbend dOpt (some p) =
          ((ptps_psbend : Int),
            some { p with type := PtPacketType.ppt_psbend, size := ptps_psbend }))
    ∧ (∀ (env env' : Env) (mem mem' : Mem) (dOpt : Option PtPacketDecoder)
        (pOpt : Option PtPacket) (r : PtRoutine),
        r = PtRoutine.pad ∨ r = PtRoutine.ovf ∨ r = PtRoutine.psbend →
        runRoutine env mem r dOpt pOpt = runRoutine env' mem' r dOpt pOpt)
    ∧ (∀ (env : Env) (mem : Mem) (d : PtPacketDecoder) (p : PtPacket),
        env.read_psb = pt_pkt_read_psb →
        (psb_pattern_at mem d.pos = true → d.pos + ptps_psb ≤ d.config.end_ →
          pt_pkt_decode_psb env mem (some d) (some p) =
            ((ptps_psb : Int),
              some { p with type := PtPacketType.ppt_psb, size := ptps_psb })) ∧
        ((psb_pattern_at mem d.pos = false ∨ d.config.end_ < d.pos + ptps_psb) →
          (pt_pkt_decode_psb env mem (some d) (some p)).1 < 0)) := by
  refine ⟨?_, ?_, ?_⟩
  · intro dOpt p
    exact ⟨rfl, rfl, rfl⟩
  · intro env env' mem mem' dOpt pOpt r hr
    rcases hr with rfl | rfl | rfl <;> rfl
  · intro env mem d p henv
    constructor
    · intro hpat hfit
      simp only [pt_pkt_decode_psb, henv, pt_pkt_read_psb]
      rw [if_neg (by omega : ¬ d.config.end_ < d.pos + ptps_psb), if_pos hpat,
        if_neg (by decide : ¬ ((ptps_psb : Nat) : Int) < 0)]
      rfl
    · intro hbad
      simp only [pt_pkt_decode_psb, henv, pt_pkt_read_psb]
      by_cases h1 : d.config.end_ < d.pos + ptps_psb
      · rw [if_pos h1, if_pos (by decide : -pte_eos < 0)]
        show -pte_eos < 0
        decide
      · rcases hbad with hpat | hfit
        · rw [if_neg h1, hpat]
          rw [if_neg (by decide : ¬ (false = true)),
            if_pos (by decide : -pte_bad_packet < 0)]
          show -pte_bad_packet < 0
          decide
        · exact absurd hfit h1

/-- Concrete instance of C2: on a buffer with a genuine marker under the
cursor, the psb routine reports the marker's fixed size. -/
theorem c2_witness :
    pt_pkt_decode_psb envPad memPsb (some dSync1) (some pkt0) =
      ((ptps_psb : Int),
        some { pkt0 with type := PtPacketType.ppt_psb, size := ptps_psb }) :=
  (c2_fixed_size_kinds.2.2 envPad memPsb dSync1 pkt0 rfl).1 (by decide) (by decide)

/-- C2 as frozen is false for the psb kind: on a zeroed buffer the psb
routine fails with a data-format error instead of succeeding with its
constant size, so its outcome does depend on the bytes at `pos`. -/
theorem c2_counterexample :
    (pt_pkt_decode_psb envPad memZero (some dSync1) (some pkt0)).1 =
      -pte_bad_packet ∧
    (pt_pkt_decode_psb envPad memZero (some dSync1) (some pkt0)).1 < 0 := by
  constructor <;> decide

/-- Claim C3: before dispatching, the decode step requires `pos` to be a set
cursor inside `[begin, end)`: for a session whose cursor is unset or outside
that range it fails, returning the session and record untouched — and the
result is one constant, independent of the buffer and the environment, so no
byte is read. -/
theorem c3_predispatch_bounds :
    ∀ (env : Env) (mem : Mem) (d : PtPacketDecoder) (p : PtPacket),
    d.pos = 0 ∨ d.pos < d.config.begin_ ∨ d.config.end_ ≤ d.pos →
    pt_pkt_next env mem (some d) (some p) = (-pte_eos, some d, some p) := by
  intro env mem d p hbad
  simp only [pt_pkt_next, pt_df_fetch, if_pos hbad]

/-- Concrete instance of C3: a freshly constructed (unsynchronized) session
fails its decode step and is left unchanged. -/
theorem c3_witness :
    pt_pkt_next envPad memZero (some dInit) (some pkt0) =
      (-pte_eos, some dInit, some pkt0) :=
  c3_predispatch_bounds envPad memZero dInit pkt0 (Or.inl rfl)

/-- Claim C4: every failing decode step leaves `pos` unchanged — whether the
failure came from the dispatch lookup, a missing routine, or the routine
itself — so retrying is idempotent. -/
theorem c4_failure_preserves_pos :
    ∀ (env : Env) (mem : Mem) (d : PtPacketDecoder) (p : PtPacket) (s : Int)
      (d' : PtPacketDecoder) (pOut : Option PtPacket),
    pt_pkt_next env mem (some d) (some p) = (s, some d', pOut) → s < 0 →
    d'.pos = d.pos := by
  intro env mem d p s d' pOut h hs
  obtain ⟨d'', hdo, -, -, -, hneg, -⟩ := pt_pkt_next_spec h
  rw [Option.some.injEq] at hdo
  subst hdo
  rw [hneg hs]

/-- Concrete instance of C4: a decode step that fails on an empty dispatch
entry returns with `pos` still where it was. -/
theorem c4_witness :
    pt_pkt_next envNoEntry memZero (some dSync1) (some pkt0) =
      (-pte_internal, some dSync1, some pkt0) ∧
    dSync1.pos = dSync1.pos :=
  ⟨by decide,
   c4_failure_preserves_pos envNoEntry memZero dSync1 pkt0 (-pte_internal)
     dSync1 (some pkt0) (by decide) (by decide)⟩

theorem sync_forward_never_decrease {env : Env} {mem : Mem}
    {d d' : PtPacketDecoder} (hr : Reachable env mem d)
    (h : pt_pkt_sync_forward mem (some d) = (0, some d')) : d.sync ≤ d'.sync := by
  rcases pt_pkt_sync_forward_spec h with ⟨hne, _⟩ | ⟨-, -, -, hge, -⟩
  · exact absurd rfl hne
  · obtain ⟨-, -, hsp⟩ := reachable_inv hr
    by_cases hp : d.pos = 0
    · rw [hp] at hsp
      omega
    · rw [if_neg hp] at hge
      omega

theorem sync_forward_skip_at_anchor {mem : Mem} {d d' : PtPacketDecoder}
    (hp : d.pos ≠ 0) (hps : d.pos = d.sync)
    (h : pt_pkt_sync_forward mem (some d) = (0, some d')) :
    d.sync + ptps_psb ≤ d'.sync := by
  rcases pt_pkt_sync_forward_spec h with ⟨hne, _⟩ | ⟨-, -, -, -, hskip⟩
  · exact absurd rfl hne
  · refine hskip ?_
    rw [if_neg hp]
    exact hps

theorem sync_forward_result_ne_zero {env : Env} {mem : Mem}
    {d d' : PtPacketDecoder} (hr : Reachable env mem d)
    (h : pt_pkt_sync_forward mem (some d) = (0, some d')) : d'.sync ≠ 0 := by
  rcases pt_pkt_sync_forward_spec h with ⟨hne, _⟩ | ⟨-, -, -, hge, -⟩
  · exact absurd rfl hne
  · obtain ⟨hb0, -, -⟩ := reachable_inv hr
    by_cases hp : d.pos = 0
    · rw [if_pos hp] at hge
      omega
    · rw [if_neg hp] at hge
      omega

/-- Claim C5: a successful forward synchronization never decreases the sync
offset of a reachable session; when the cursor sits exactly on the previous
marker the scan skips the marker's fixed size first; hence two consecutive
successful calls from one synchronized position advance the sync offset by at
least the marker's fixed size. -/
theorem c5_sync_forward_progress :
    (∀ (env : Env) (mem : Mem) (d d' : PtPacketDecoder), Reachable env mem d →
        pt_pkt_sync_forward mem (some d) = (0, some d') → d.sync ≤ d'.sync)
    ∧ (∀ (mem : Mem) (d d' : PtPacketDecoder), d.pos ≠ 0 → d.pos = d.sync →
        pt_pkt_sync_forward mem (some d) = (0, some d') →
        d.sync + ptps_psb ≤ d'.sync)
    ∧ (∀ (env : Env) (mem : Mem) (d d₁ d₂ : PtPacketDecoder),
        Reachable env mem d →
        pt_pkt_sync_forward mem (some d) = (0, some d₁) →
        pt_pkt_sync_forward mem (some d₁) = (0, some d₂) →
        d₁.sync ≤ d₂.sync ∧ d₁.sync + ptps_psb ≤ d₂.sync) := by
  refine ⟨?_, ?_, ?_⟩
  · intro env mem d d' hr h
    exact sync_forward_never_decrease hr h
  · intro mem d d' hp hps h
    exact sync_forward_skip_at_anchor hp hps h
  · intro env mem d d₁ d₂ hr h1 h2
    have hpos1 : d₁.pos = d₁.sync := by
      rcases pt_pkt_sync_forward_spec h1 with ⟨hne, _⟩ | ⟨-, -, hps, -, -⟩
      · exact absurd rfl hne
      · exact hps
    have hne1 : d₁.pos ≠ 0 := by
      rw [hpos1]
      exact sync_forward_result_ne_zero hr h1
    have hskip := sync_forward_skip_at_anchor hne1 hpos1 h2
    exact ⟨by omega, hskip⟩

/-- Concrete instance of C5: from the marker at offset 0 of the view, a
second forward synchronization lands on the next marker, 16 bytes further. -/
theorem c5_witness :
    dSync1.sync ≤ ({ config := cfgW, pos := 17, sync := 17 } : PtPacketDecoder).sync ∧
    dSync1.sync + ptps_psb ≤
      ({ config := cfgW, pos := 17, sync := 17 } : PtPacketDecoder).sync :=
  c5_sync_forward_progress.2.2 envPad memPsb dInit dSync1
    { config := cfgW, pos := 17, sync := 17 }
    (Reachable.init dInit cfgW dInit (by decide)) (by decide) (by decide)

/-- Claim C6: for a valid view, `sync_set N` succeeds exactly for
`N ≤ end - begin`, after which the offset query returns exactly `N`; for
larger `N` it fails with InvalidArgument leaving the session unchanged. -/
theorem c6_sync_set_exact :
    ∀ (d : PtPacketDecoder) (N : Nat),
    d.config.begin_ ≠ 0 → d.config.begin_ ≤ d.config.end_ →
    (N ≤ d.config.end_ - d.config.begin_ →
      pt_pkt_sync_set (some d) N =
        (0, some { d with sync := d.config.begin_ + N,
                          pos := d.config.begin_ + N }) ∧
      pt_pkt_get_offset (pt_pkt_sync_set (some d) N).2 true = Except.ok N)
    ∧ (d.config.end_ - d.config.begin_ < N →
      pt_pkt_sync_set (some d) N = (-pte_invalid, some d)) := by
  intro d N hb hbe
  constructor
  · intro hle
    have hcond : ¬ (d.config.end_ < d.config.begin_ + N ∨
        d.config.begin_ + N < d.config.begin_) := by omega
    constructor
    · simp only [pt_pkt_sync_set, if_neg hcond]
    · simp only [pt_pkt_sync_set, if_neg hcond, pt_pkt_get_offset]
      rw [if_neg (show ¬ (d.config.begin_ + N = 0) by omega)]
      show Except.ok (d.config.begin_ + N - d.config.begin_) = Except.ok N
      rw [Nat.add_sub_cancel_left]
  · intro hgt
    have hcond : d.config.end_ < d.config.begin_ + N ∨
        d.config.begin_ + N < d.config.begin_ := by omega
    simp only [pt_pkt_sync_set, if_pos hcond]

/-- Concrete instance of C6: seeking to offset 5 of the `[1, 50)` view
succeeds and the offset query reads back 5. -/
theorem c6_witness :
    pt_pkt_sync_set (some dInit) 5 =
      (0, some { dInit with sync := cfgW.begin_ + 5, pos := cfgW.begin_ + 5 }) ∧
    pt_pkt_get_offset (pt_pkt_sync_set (some dInit) 5).2 true = Except.ok 5 :=
  (c6_sync_set_exact dInit 5 (by decide) (by decide)).1 (by decide)

/-- Claim C7: construction fails with InvalidArgument exactly when an
argument is absent, with BadConfig exactly when the version tag mismatches or
`begin` is absent or `end < begin`; on success the session holds a private
copy of the view with both cursors unset, so the offset query right after
construction fails with NoSync. -/
theorem c7_construction_contract :
    (∀ (dOpt : Option PtPacketDecoder) (cOpt : Option PtConfig),
        (pt_pkt_decoder_init dOpt cOpt).1 = -pte_invalid ↔
          dOpt = none ∨ cOpt = none)
    ∧ (∀ (d0 : PtPacketDecoder) (cfg : PtConfig),
        (pt_pkt_decoder_init (some d0) (some cfg)).1 = -pte_bad_config ↔
          cfg.csize ≠ sizeof_pt_config ∨ cfg.begin_ = 0 ∨ cfg.end_ < cfg.begin_)
    ∧ (∀ (d0 d : PtPacketDecoder) (cfg : PtConfig),
        pt_pkt_decoder_init (some d0) (some cfg) = (0, some d) →
        d.pos = 0 ∧ d.sync = 0 ∧ d.config = cfg ∧
          pt_pkt_get_offset (some d) true = Except.error (-pte_nosync)) := by
  refine ⟨?_, ?_, ?_⟩
  · intro dOpt cOpt
    cases dOpt with
    | none => simp [pt_pkt_decoder_init]
    | some d0 =>
      cases cOpt with
      | none => simp [pt_pkt_decoder_init]
      | some cfg =>
        simp only [pt_pkt_decoder_init]
        constructor
        · intro h
          split_ifs at h
          · exact absurd h (by decide : ¬ ((-pte_bad_config : Int) = -pte_invalid))
          · exact absurd h (by decide : ¬ ((-pte_bad_config : Int) = -pte_invalid))
          · exact absurd h (by decide : ¬ ((0 : Int) = -pte_invalid))
        · rintro (h | h) <;> exact absurd h (by simp)
  · intro d0 cfg
    simp only [pt_pkt_decoder_init]
    constructor
    · intro h
      split_ifs at h with h1 h2
      · exact Or.inl h1
      · rcases h2 with h2 | h2
        · exact Or.inr (Or.inl h2)
        · exact Or.inr (Or.inr h2)
      · exact absurd h (by decide : ¬ ((0 : Int) = -pte_bad_config))
    · intro h
      split_ifs with h1 h2
      · rfl
      · rfl
      · push_neg at h1 h2
        rcases h with h | h | h
        · exact absurd h1 h
        · exact absurd h h2.1
        · exact absurd h (by omega)
  · intro d0 d cfg h
    obtain ⟨hd, -, -, -⟩ := pt_pkt_decoder_init_ok h
    subst hd
    exact ⟨rfl, rfl, rfl, rfl⟩

/-- Concrete instance of C7: a successfully constructed session has both
cursors unset and its offset query fails with NoSync. -/
theorem c7_witness :
    dInit.pos = 0 ∧ dInit.sync = 0 ∧ dInit.config = cfgW ∧
      pt_pkt_get_offset (some dInit) true = Except.error (-pte_nosync) :=
  c7_construction_contract.2.2 dInit dInit cfgW (by decide)

/-- Claim C8: when the dispatch lookup succeeds but yields no entry for the
opcode at `pos`, or an entry without a decode function, the decode step fails
with Internal — never with a data-format error attributable to the bytes. -/
theorem c8_missing_dispatch_internal :
    ∀ (env : Env) (mem : Mem) (d : PtPacketDecoder) (p : PtPacket),
    d.pos ≠ 0 → d.config.begin_ ≤ d.pos → d.pos < d.config.end_ →
    (env.table (mem d.pos) = DfEntry.noEntry ∨
      env.table (mem d.pos) = DfEntry.noPacketFun) →
    pt_pkt_next env mem (some d) (some p) = (-pte_internal, some d, some p) := by
  intro env mem d p h0 hb he htab
  have hcond : ¬ (d.pos = 0 ∨ d.pos < d.config.begin_ ∨ d.config.end_ ≤ d.pos) := by
    omega
  simp only [pt_pkt_next, pt_df_fetch, if_neg hcond]
  rcases htab with h | h <;> rw [h]

/-- Concrete instance of C8: an empty dispatch entry makes the decode step
fail with Internal. -/
theorem c8_witness :
    pt_pkt_next envNoFun memZero (some dSync1) (some pkt0) =
      (-pte_internal, some dSync1, some pkt0) :=
  c8_missing_dispatch_internal envNoFun memZero dSync1 pkt0 (by decide)
    (by decide) (by decide) (Or.inr rfl)

/-- Claim C9: every successful synchronization operation sets `pos` and
`sync` to the same offset in one step; in every reachable session a set
`sync` implies a set `pos`; and the decode step — the only other mutator —
never changes `sync`. -/
theorem c9_sync_pos_invariant :
    (∀ (mem : Mem) (d d' : PtPacketDecoder),
        pt_pkt_sync_forward mem (some d) = (0, some d') → d'.pos = d'.sync)
    ∧ (∀ (mem : Mem) (d d' : PtPacketDecoder),
        pt_pkt_sync_backward mem (some d) = (0, some d') → d'.pos = d'.sync)
    ∧ (∀ (d : PtPacketDecoder) (off : Nat) (d' : PtPacketDecoder),
        pt_pkt_sync_set (some d) off = (0, some d') → d'.pos = d'.sync)
    ∧ (∀ (env : Env) (mem : Mem) (d : PtPacketDecoder),
        Reachable env mem d → d.sync ≠ 0 → d.pos ≠ 0)
    ∧ (∀ (env : Env) (mem : Mem) (d : PtPacketDecoder) (p : PtPacket) (s : Int)
        (d' : PtPacketDecoder) (pOut : Option PtPacket),
        pt_pkt_next env mem (some d) (some p) = (s, some d', pOut) →
        d'.sync = d.sync) := by
  refine ⟨?_, ?_, ?_, ?_, ?_⟩
  · intro mem d d' h
    rcases pt_pkt_sync_forward_spec h with ⟨hne, -⟩ | ⟨-, -, hps, -, -⟩
    · exact absurd rfl hne
    · exact hps
  · intro mem d d' h
    rcases pt_pkt_sync_backward_spec h with ⟨hne, -⟩ | ⟨-, -, hps, -⟩
    · exact absurd rfl hne
    · exact hps
  · intro d off d' h
    rcases pt_pkt_sync_set_spec h with ⟨hne, -⟩ | ⟨-, -, hps, -, -⟩
    · exact absurd rfl hne
    · exact hps
  · intro env mem d hr hs
    obtain ⟨-, -, hsp⟩ := reachable_inv hr
    omega
  · intro env mem d p s d' pOut h
    obtain ⟨d'', hdo, hsy, -, -, -, -⟩ := pt_pkt_next_spec h
    rw [Option.some.injEq] at hdo
    subst hdo
    exact hsy

/-- Concrete instance of C9: the forward synchronization that lands on the
marker at offset 0 sets both cursors to it. -/
theorem c9_witness : dSync1.pos = dSync1.sync :=
  c9_sync_pos_invariant.1 memPsb dInit dSync1 (by decide)

/-- Claim C10: the pad, overflow and psbend routines never read the decoder
argument — their result is the same for any decoder, even an absent one; for
every present packet they succeed filling the kind and its constant size; and
they fail with Internal exactly when the packet argument is absent. -/
theorem c10_payloadless_ignore_decoder :
    (∀ (d₁ d₂ : Option PtPacketDecoder) (pOpt : Option PtPacket),
        pt_pkt_decode_pad d₁ pOpt = pt_pkt_decode_pad d₂ pOpt ∧
        pt_pkt_decode_ovf d₁ pOpt = pt_pkt_decode_ovf d₂ pOpt ∧
        pt_pkt_decode_psbend d₁ pOpt = pt_pkt_decode_psbend d₂ pOpt)
    ∧ (∀ (dOpt : Option PtPacketDecoder) (p : PtPacket),
        pt_pkt_decode_pad dOpt (some p) =
          ((ptps_pad : Int),
            some { p with type := PtPacketType.ppt_pad, size := ptps_pad }) ∧
        pt_pkt_decode_ovf dOpt (some p) =
          ((ptps_ovf : Int),
            some { p with type := PtPacketType.ppt_ovf, size := ptps_ovf }) ∧
        pt_pkt_decode_psbend dOpt (some p) =
          ((ptps_psbend : Int),
            some { p with type := PtPacketType.ppt_psbend, size := ptps_psbend }))
    ∧ (∀ (dOpt : Option PtPacketDecoder) (pOpt : Option PtPacket),
        ((pt_pkt_decode_pad dOpt pOpt).1 = -pte_internal ↔ pOpt = none) ∧
        ((pt_pkt_decode_ovf dOpt pOpt).1 = -pte_internal ↔ pOpt = none) ∧
        ((pt_pkt_decode_psbend dOpt pOpt).1 = -pte_internal ↔ pOpt = none)) := by
  refine ⟨?_, ?_, ?_⟩
  · intro d₁ d₂ pOpt
    exact ⟨rfl, rfl, rfl⟩
  · intro dOpt p
    exact ⟨rfl, rfl, rfl⟩
  · intro dOpt pOpt
    cases pOpt with
    | none =>
      refine ⟨?_, ?_, ?_⟩ <;> simp [pt_pkt_decode_pad, pt_pkt_decode_ovf,
        pt_pkt_decode_psbend]
    | some p =>
      refine ⟨?_, ?_, ?_⟩ <;> constructor
      · intro h
        exact absurd h (by decide : ¬ (((ptps_pad : Nat) : Int) = -pte_internal))
      · intro h
        exact absurd h (by simp : ¬ (some p = none))
      · intro h
        exact absurd h (by decide : ¬ (((ptps_ovf : Nat) : Int) = -pte_internal))
      · intro h
        exact absurd h (by simp : ¬ (some p = none))
      · intro h
        exact absurd h (by decide : ¬ (((ptps_psbend : Nat) : Int) = -pte_internal))
      · intro h
        exact absurd h (by simp : ¬ (some p = none))

/-- Concrete instance of C10: the pad routine succeeds with its constant size
even when the decoder argument is absent. -/
theorem c10_witness :
    pt_pkt_decode_pad none (some pkt0) =
      ((ptps_pad : Int),
        some { pkt0 with type := PtPacketType.ppt_pad, size := ptps_pad }) :=
  (c10_payloadless_ignore_decoder.2.1 none pkt0).1
